import Mathlib

/-!
Shallow embedding of the `cherrypicker` traversal/extraction engine
(`src/cherrypicker/picker.py`, `traversable.py`, `leaf.py`, `exceptions.py`)
and proofs about its specified behaviour.

Modelling conventions:
* Python values that the picker traverses are modelled by `CValue`
  (strings, integers, `None`, dicts with string keys in insertion order,
  and lists).  Dicts are association lists iterated in order; real Python
  dicts have unique keys.
* Python exceptions are modelled by kind (`PyErr`), fallible code returns
  `Except PyErr _`.
* The regular-expression engine (`re.fullmatch`) and the glob matcher
  (`fnmatch.fnmatchcase`) are opaque oracles passed as parameters
  (`reF`, `fnm`); a malformed pattern is an oracle call that returns
  `Except.error PyErr.reError` (Python's `re.error`).
* User-supplied predicate callables are `CValue → Except PyErr Bool`
  (their raised exceptions are the `.error` results).
* The options dict `_opts` keeps the source's string-valued policies
  (`on_missing`, `on_error`, `on_leaf`) so that `== "raise"` /
  `== "ignore"` comparisons translate literally.
-/

namespace Cherry

/-- Tree-shaped Python data handled by the picker: scalars, `None`,
dicts (string keys, insertion order) and lists. -/
inductive CValue where
  | str (s : String)
  | int (n : Int)
  | null
  | map (kvs : List (String × CValue))
  | list (xs : List CValue)

/-- Python exception kinds raised by the modelled code paths.
`reError` is `re.error`; `recursionError` stands for Python's recursion
limit (used as fuel for the mutually recursive extraction dispatch). -/
inductive PyErr where
  | reError
  | attrError
  | typeError
  | keyError
  | indexError
  | valueError
  | leafError
  | recursionError
  | userError (n : Nat)
deriving DecidableEq, Repr

/-- Configuration snapshot (`_opts`): policy strings exactly as stored by
`CherryPicker.__init__`, the `default` filler value and the resolved
worker count.  `n_jobs` is the value of the (missing-from-src)
`_effective_n_jobs` property; per the spec it is `1` for sequential and
the positive configured worker count otherwise. -/
structure Opts where
  on_missing : String
  on_error : String
  on_leaf : String
  dflt : CValue
  n_jobs : Nat

/-- Modelled from the spec: default option values of the `CherryPicker`
base class (its `_opts` class attribute is not under `src/`):
`on_missing="ignore"`, `on_error="ignore"`, `on_leaf="raise"`,
`default=None`, sequential execution (`n_jobs` resolves to 1). -/
def defaultOpts : Opts :=
  { on_missing := "ignore", on_error := "ignore", on_leaf := "raise",
    dflt := CValue.null, n_jobs := 1 }

/-- Node kinds produced by classification. -/
inductive CClass where
  | leaf
  | mapping
  | iterable
deriving DecidableEq, Repr

/-- Translation of `CherryPicker._get_cherry_class` (picker.py): a
`Mapping` is a mapping node, a `str` or a non-`Iterable` value is a leaf,
anything else (here: a list) is an iterable node. -/
def cherryClass : CValue → CClass
  | CValue.map _ => CClass.mapping
  | CValue.str _ => CClass.leaf
  | CValue.int _ => CClass.leaf
  | CValue.null => CClass.leaf
  | CValue.list _ => CClass.iterable

mutual
/-- Python `==` on modelled values, structural: cross-kind comparisons are
`False`.  (Model note: dict `==` is compared in list order here; real
Python dict equality is order-insensitive, which no claim exercises.) -/
def pyEq : CValue → CValue → Bool
  | CValue.str a, CValue.str b => a == b
  | CValue.int a, CValue.int b => a == b
  | CValue.null, CValue.null => true
  | CValue.map a, CValue.map b => pyEqKVs a b
  | CValue.list a, CValue.list b => pyEqList a b
  | _, _ => false

def pyEqList : List CValue → List CValue → Bool
  | [], [] => true
  | a :: as', b :: bs' => pyEq a b && pyEqList as' bs'
  | _, _ => false

def pyEqKVs : List (String × CValue) → List (String × CValue) → Bool
  | [], [] => true
  | (ka, va) :: as', (kb, vb) :: bs' => ka == kb && pyEq va vb && pyEqKVs as' bs'
  | _, _ => false
end

/-- Python `str.lower()` (ASCII model; the claims only exercise ASCII
strings). -/
def strLower (s : String) : String := String.mk (s.data.map Char.toLower)

/-- Python `sub in s` substring test on strings. -/
def strContains (s sub : String) : Bool :=
  decide (sub.data <:+: s.data)

/-- Python `attr in obj` (`_filter_item`'s membership test on a raw
item): dict key test, list membership, string substring test; `in` on a
non-container raises `TypeError`. -/
def containsAttr (attr : String) : CValue → Except PyErr Bool
  | CValue.map kvs => Except.ok ((kvs.lookup attr).isSome)
  | CValue.list xs => Except.ok (xs.any (fun x => pyEq x (CValue.str attr)))
  | CValue.str s => Except.ok (strContains s attr)
  | _ => Except.error PyErr.typeError

/-- Python `obj[attr]` with a string subscript (`val = obj[attr]` in
`_filter_item`, evaluated outside the `try`): dict lookup (`KeyError`
when absent), `TypeError` on lists/strings/scalars. -/
def getAttr (attr : String) : CValue → Except PyErr CValue
  | CValue.map kvs =>
      match kvs.lookup attr with
      | some v => Except.ok v
      | Option.none => Except.error PyErr.keyError
  | _ => Except.error PyErr.typeError

/-- Predicate values accepted by `filter`: a callable, a precompiled
pattern object (its `fullmatch`-and-test behaviour, which may raise, is
the stored function), a literal string, or any other value (compared
with `==`). -/
inductive Pred where
  | callable (f : CValue → Except PyErr Bool)
  | compiled (m : CValue → Except PyErr Bool)
  | str (p : String)
  | lit (v : CValue)

/-- String-predicate branch of `_filter_item` (traversable.py lines
182-193), for a string candidate value: lowercase both sides when not
case sensitive, then regex full-match (`re.I` flag when not case
sensitive), glob match, or equality.  `reF pat val icase` models
`re.fullmatch(pat, val, re.I if icase else 0) is not None`. -/
def strBranch (reF : String → String → Bool → Except PyErr Bool)
    (fnm : String → String → Bool)
    (case_sensitive regex allow_wildcards : Bool)
    (p v : String) : Except PyErr Bool :=
  let p' := if case_sensitive then p else strLower p
  let v' := if case_sensitive then v else strLower v
  if regex then reF p' v' (!case_sensitive)
  else if allow_wildcards then Except.ok (fnm v' p')
  else Except.ok (p' == v')

/-- C5 comparison definition, following the spec's words: with
`regex = true` case-insensitivity is expressed solely as the match flag
and the operands are *not* lowercased first; the remaining branches are
unchanged. -/
def strBranchSpecC5 (reF : String → String → Bool → Except PyErr Bool)
    (fnm : String → String → Bool)
    (case_sensitive regex allow_wildcards : Bool)
    (p v : String) : Except PyErr Bool :=
  if regex then reF p v (!case_sensitive)
  else
    let p' := if case_sensitive then p else strLower p
    let v' := if case_sensitive then v else strLower v
    if allow_wildcards then Except.ok (fnm v' p')
    else Except.ok (p' == v')

/-- Body of the `try` block of `_filter_item` (traversable.py lines
177-195): dispatch on the predicate's type.  For a string predicate and
a non-string candidate the Python operations raise: `.lower()` on the
candidate raises `AttributeError`, `re.fullmatch`/`fnmatchcase` raise
`TypeError`; plain `==` against a string is simply `False`. -/
def tryBody (reF : String → String → Bool → Except PyErr Bool)
    (fnm : String → String → Bool)
    (case_sensitive regex allow_wildcards : Bool)
    (pred : Pred) (val : CValue) : Except PyErr Bool :=
  match pred with
  | Pred.callable f => f val
  | Pred.compiled m => m val
  | Pred.str p =>
      match val with
      | CValue.str v => strBranch reF fnm case_sensitive regex allow_wildcards p v
      | other =>
          if !case_sensitive then Except.error PyErr.attrError
          else if regex then Except.error PyErr.typeError
          else if allow_wildcards then Except.error PyErr.typeError
          else Except.ok (pyEq (CValue.str p) other)
  | Pred.lit x => Except.ok (pyEq x val)

/-- Per-field result of one iteration of `_filter_item`'s loop
(traversable.py lines 168-204): absent field honours `on_missing`;
a raised `re.error` always propagates (`except cls._RE_ERR: raise`);
any other exception honours `on_error`. -/
def fieldRes (reF : String → String → Bool → Except PyErr Bool)
    (fnm : String → String → Bool) (opts : Opts)
    (case_sensitive regex allow_wildcards : Bool)
    (attr : String) (pred : Pred) (obj : CValue) : Except PyErr Bool :=
  match containsAttr attr obj with
  | Except.error e => Except.error e
  | Except.ok c =>
      if !c then
        if opts.on_missing == "raise" then Except.error PyErr.attrError
        else Except.ok false
      else
        match getAttr attr obj with
        | Except.error e => Except.error e
        | Except.ok val =>
            match tryBody reF fnm case_sensitive regex allow_wildcards pred val with
            | Except.ok b => Except.ok b
            | Except.error e =>
                if e = PyErr.reError then Except.error e
                else if opts.on_error == "raise" then Except.error e
                else Except.ok false

/-- Translation of `CherryPickerTraversable._filter_item`
(traversable.py lines 161-214).  The result mirrors Python's return
value: `some true`/`some false` for the explicit returns, `none` for the
implicit `None` when `how` is neither `"any"` nor `"all"` (the caller
treats `None` as falsy). -/
def filter_item (reF : String → String → Bool → Except PyErr Bool)
    (fnm : String → String → Bool) (opts : Opts) (how : String)
    (allow_wildcards case_sensitive regex : Bool)
    (preds : List (String × Pred)) (obj : CValue) :
    Except PyErr (Option Bool) :=
  match preds with
  | [] =>
      Except.ok
        (if how == "any" then some false
         else if how == "all" then some true
         else Option.none)
  | (attr, pred) :: rest =>
      match fieldRes reF fnm opts case_sensitive regex allow_wildcards attr pred obj with
      | Except.error e => Except.error e
      | Except.ok res =>
          if res && how == "any" then Except.ok (some true)
          else if !res && how == "all" then Except.ok (some false)
          else filter_item reF fnm opts how allow_wildcards case_sensitive regex rest obj

/-! Chunked filtering of iterable nodes (`CherryPickerIterable._chunks`,
`_filter_chunk`, `_join_chunks`, `_filter`). -/

/-- Successive slices `l[pos : pos + csize]` for `pos = 0, csize, …`
(the loop of `_chunks`, traversable.py lines 580-582).  `csize = 0`
cannot occur there (Python's `range` would reject a zero step); the
model returns no chunks for it. -/
def sliceChunks : List CValue → Nat → List (List CValue)
  | [], _ => []
  | _ :: _, 0 => []
  | x :: xs, Nat.succ c =>
      (x :: xs).take (c + 1) :: sliceChunks (xs.drop c) (c + 1)
termination_by l _ => l.length
decreasing_by
  simp only [List.length_drop, List.length_cons]
  omega

/-- Python `-(-len_obj // n_jobs)`: ceiling division. -/
def ceilDiv (a b : Nat) : Nat := (a + b - 1) / b

/-- Translation of `CherryPickerIterable._chunks` (traversable.py lines
570-582) as the list of chunks the caller iterates over: an empty
wrapped sequence (or a falsy worker count, a dead branch once `n_jobs`
is resolved to a positive count) yields no chunks, otherwise contiguous
slices of size `ceil(len / n_jobs)`. -/
def chunksOf (obj : List CValue) (n_jobs : Nat) : List (List CValue) :=
  if obj.length = 0 then []
  else if n_jobs = 0 then []
  else sliceChunks obj (ceilDiv obj.length n_jobs)

/-- Python truthiness of `_filter_item`'s return value (`None` is
falsy). -/
def truthy (o : Option Bool) : Bool := o.getD false

/-- Translation of `CherryPickerIterable._filter_chunk` (traversable.py
lines 451-472): keep the items of the chunk whose `_filter_item` result
is truthy; a raised exception aborts the chunk. -/
def filter_chunk (reF : String → String → Bool → Except PyErr Bool)
    (fnm : String → String → Bool) (opts : Opts) (how : String)
    (allow_wildcards case_sensitive regex : Bool)
    (preds : List (String × Pred)) :
    List CValue → Except PyErr (List CValue)
  | [] => Except.ok []
  | x :: xs =>
      match filter_item reF fnm opts how allow_wildcards case_sensitive regex preds x with
      | Except.error e => Except.error e
      | Except.ok r =>
          match filter_chunk reF fnm opts how allow_wildcards case_sensitive regex preds xs with
          | Except.error e => Except.error e
          | Except.ok rest => Except.ok (if truthy r then x :: rest else rest)

/-- The `Parallel(...)(delayed(...)(chunk) for chunk in chunks)` loop:
apply the per-chunk function to every chunk, the first raised exception
propagating. -/
def mapChunks (fc : List CValue → Except PyErr (List CValue)) :
    List (List CValue) → Except PyErr (List (List CValue))
  | [] => Except.ok []
  | c :: rest =>
      match fc c with
      | Except.error e => Except.error e
      | Except.ok r =>
          match mapChunks fc rest with
          | Except.error e => Except.error e
          | Except.ok rs => Except.ok (r :: rs)

/-- Translation of `CherryPickerIterable._filter` (traversable.py lines
602-627): filter every chunk, then take `items[0]` when the effective
worker count is 1 (an `IndexError` when there are no chunks) and the
concatenation of the chunk results otherwise
(`_join_chunks`, lines 584-585). -/
def iterFilter (reF : String → String → Bool → Except PyErr Bool)
    (fnm : String → String → Bool) (opts : Opts) (how : String)
    (allow_wildcards case_sensitive regex : Bool)
    (preds : List (String × Pred)) (obj : List CValue) (n_jobs : Nat) :
    Except PyErr (List CValue) :=
  match mapChunks
      (filter_chunk reF fnm opts how allow_wildcards case_sensitive regex preds)
      (chunksOf obj n_jobs) with
  | Except.error e => Except.error e
  | Except.ok items =>
      if n_jobs = 1 then
        match items with
        | [] => Except.error PyErr.indexError
        | c :: _ => Except.ok c
      else Except.ok items.flatten

/-! Flattening of mapping nodes (`CherryPickerMapping._flatten`). -/

/-- Python `s[:-1]`: drop the final character (identity on `""`). -/
def strInit (s : String) : String := String.mk s.data.dropLast

/-- Python dict assignment `flat[key] = v` on an insertion-ordered
association list: replace in place if the key exists, else append. -/
def dictAssign (flat : List (String × CValue)) (k : String) (v : CValue) :
    List (String × CValue) :=
  if (flat.lookup k).isSome then
    flat.map (fun kv => if kv.1 = k then (k, v) else kv)
  else flat ++ [(k, v)]

mutual
/-- Translation of `CherryPickerMapping._flatten` (traversable.py lines
271-310): store `obj` under `prefix[:-1]` once `depth` exceeds
`maxdepth`; recurse through mapping children by key and iterable
children by position, extending the prefix with the segment plus the
delimiter; store leaves under `prefix[:-1]`. -/
def pyFlatten (delim : String) (maxd : Option Nat) (obj : CValue)
    (flat : List (String × CValue)) (pfx : String) (depth : Nat) :
    List (String × CValue) :=
  if (match maxd with | some m => decide (m < depth) | Option.none => false) then
    dictAssign flat (strInit pfx) obj
  else
    match cherryClass obj, obj with
    | CClass.mapping, CValue.map kvs => pyFlattenKVs delim maxd kvs flat pfx depth
    | CClass.iterable, CValue.list xs => pyFlattenIdx delim maxd xs flat pfx depth 0
    | _, v => dictAssign flat (strInit pfx) v

/-- The `for key in obj` loop of `_flatten` over a mapping's items,
threading the accumulated flat dict. -/
def pyFlattenKVs (delim : String) (maxd : Option Nat)
    (kvs : List (String × CValue)) (flat : List (String × CValue))
    (pfx : String) (depth : Nat) : List (String × CValue) :=
  match kvs with
  | [] => flat
  | (k, v) :: rest =>
      pyFlattenKVs delim maxd rest
        (pyFlatten delim maxd v flat (pfx ++ k ++ delim) (depth + 1)) pfx depth

/-- The `for idx, val in enumerate(obj)` loop of `_flatten` over an
iterable's items (`i` is the running index). -/
def pyFlattenIdx (delim : String) (maxd : Option Nat)
    (xs : List CValue) (flat : List (String × CValue))
    (pfx : String) (depth : Nat) (i : Nat) : List (String × CValue) :=
  match xs with
  | [] => flat
  | v :: rest =>
      pyFlattenIdx delim maxd rest
        (pyFlatten delim maxd v flat (pfx ++ toString i ++ delim) (depth + 1))
        pfx depth (i + 1)
end

mutual
/-- Specification-side paths for C3, following the spec's words: the
root-to-leaf key/index segment lists paired with the leaf values, in
depth-first traversal order, truncated once `depth` exceeds the depth
limit (the remaining value is kept whole under the path so far). -/
def specPaths (maxd : Option Nat) (obj : CValue) (depth : Nat) :
    List (List String × CValue) :=
  if (match maxd with | some m => decide (m < depth) | Option.none => false) then
    [([], obj)]
  else
    match cherryClass obj, obj with
    | CClass.mapping, CValue.map kvs => specPathsKVs maxd kvs depth
    | CClass.iterable, CValue.list xs => specPathsIdx maxd xs depth 0
    | _, v => [([], v)]

/-- Paths contributed by a mapping's items: each child's paths prefixed
with its key. -/
def specPathsKVs (maxd : Option Nat) (kvs : List (String × CValue))
    (depth : Nat) : List (List String × CValue) :=
  match kvs with
  | [] => []
  | (k, v) :: rest =>
      (specPaths maxd v (depth + 1)).map (fun sv => (k :: sv.1, sv.2))
        ++ specPathsKVs maxd rest depth

/-- Paths contributed by an iterable's items: each child's paths
prefixed with its position. -/
def specPathsIdx (maxd : Option Nat) (xs : List CValue)
    (depth : Nat) (i : Nat) : List (List String × CValue) :=
  match xs with
  | [] => []
  | v :: rest =>
      (specPaths maxd v (depth + 1)).map (fun sv => (toString i :: sv.1, sv.2))
        ++ specPathsIdx maxd rest depth (i + 1)
end

/-- Prefix string accumulated by `_flatten` for a list of path segments:
every segment is followed by one copy of the delimiter. -/
def joinSegs (delim : String) : List String → String
  | [] => ""
  | s :: rest => s ++ delim ++ joinSegs delim rest

/-- Delimiter-joined path (the spec's "delimiter-joined path of map-keys
and/or positional indices"): segments separated by the delimiter, with
nothing appended at either end. -/
def joinWith (delim : String) : List String → String
  | [] => ""
  | [s] => s
  | s :: rest => s ++ delim ++ joinWith delim rest

/-- Flat map built per the spec's words: each (path, leaf) entry of
`specPaths`, with the path joined by the delimiter, assigned in order
into an initially empty single-level map. -/
def specFlattenJoined (delim : String) (maxd : Option Nat) (obj : CValue) :
    List (String × CValue) :=
  (specPaths maxd obj 0).foldl
    (fun f sv => dictAssign f (joinWith delim sv.1) sv.2) []

/-- Generalised right-hand side of the flatten/paths correspondence:
assign the given (path, value) entries into `flat`, each path prefixed
with `segs` and keyed the way `_flatten` keys it (`prefix[:-1]` of the
accumulated prefix). -/
def specFold (delim : String) (entries : List (List String × CValue))
    (segs : List String) (flat : List (String × CValue)) :
    List (String × CValue) :=
  entries.foldl
    (fun f sv => dictAssign f (strInit (joinSegs delim (segs ++ sv.1))) sv.2)
    flat

/-! Key discovery on iterable nodes (`CherryPickerIterable.keys`). -/

/-- Insertion sort of strings (the model of Python's `sorted` on
strings; both the code side and the spec side use it). -/
def insertSorted (s : String) : List String → List String
  | [] => [s]
  | x :: xs => if s ≤ x then s :: x :: xs else x :: insertSorted s xs

/-- Sorted list of the given strings. -/
def sortStrings (l : List String) : List String := l.foldr insertSorted []

/-- Deduplication keeping first occurrences (`seen` accumulates the
keys already kept). -/
def dedupAux : List String → List String → List String
  | [], _ => []
  | k :: rest, seen =>
      if seen.contains k then dedupAux rest seen
      else k :: dedupAux rest (k :: seen)

/-- Deduplicated key list (Python set construction; real dict key lists
are already duplicate-free). -/
def dedupKeys (l : List String) : List String := dedupAux l []

/-- Python `set(item.keys())` for a candidate child: the key list of a
mapping child (deduplicated, preserving first occurrences), `none` when
`.keys()` raises `AttributeError` (non-mapping child). -/
def keySetQ : CValue → Option (List String)
  | CValue.map kvs => some (dedupKeys (kvs.map Prod.fst))
  | _ => Option.none

/-- Python set intersection on deduplicated key lists. -/
def interKeys (a b : List String) : List String := a.filter (fun k => b.contains k)

/-- Python `obj[slice(None, peek, None)]`: the first `peek` items, or
everything when `peek is None`. -/
def previewOf (obj : List CValue) (peek : Option Nat) : List CValue :=
  match peek with
  | Option.none => obj
  | some p => obj.take p

/-- Translation of `CherryPickerIterable.keys` (traversable.py lines
423-448): preview `obj[:peek]` (everything when `peek is None`); start
from `set(preview[0].keys())` — an `IndexError` when the preview is
empty, the empty set when the first item has no `.keys` — then intersect
with each later mapping item's keys, skipping `AttributeError`s; return
the sorted result. -/
def pyKeys (obj : List CValue) (peek : Option Nat) :
    Except PyErr (List String) :=
  match previewOf obj peek with
  | [] => Except.error PyErr.indexError
  | first :: rest =>
      let keys0 := (keySetQ first).getD []
      let keys := rest.foldl
        (fun acc item =>
          match keySetQ item with
          | some ks => interKeys acc ks
          | Option.none => acc) keys0
      Except.ok (sortStrings keys)

/-- Intersection of a list of key sets (empty on no sets), used to state
the claim's "intersection of the key sets of the inspected mapping
children". -/
def interList : List (List String) → List String
  | [] => []
  | f :: rest => rest.foldl interKeys f

/-- Claim-side definition for C7, following the claim's words: the
sorted intersection of the key sets of the inspected mapping children,
with non-mapping children skipped without error. -/
def keysClaimC7 (obj : List CValue) (peek : Option Nat) :
    Except PyErr (List String) :=
  Except.ok (sortStrings (interList ((previewOf obj peek).filterMap keySetQ)))

/-- Amended-claim definition for C7: like `keysClaimC7`, except that an
empty preview is an index error and a non-mapping *first* inspected
child forces the empty intersection. -/
def keysAmendedC7 (obj : List CValue) (peek : Option Nat) :
    Except PyErr (List String) :=
  match previewOf obj peek with
  | [] => Except.error PyErr.indexError
  | first :: _ =>
      if (keySetQ first).isSome then
        Except.ok (sortStrings
          (interList ((previewOf obj peek).filterMap keySetQ)))
      else Except.ok (sortStrings [])

/-! Nodes, child construction, `filter` dispatch and `__getitem__`. -/

/-- A picker node: the wrapped value, the configuration snapshot, the
parent back-reference and (for iterable nodes whose children have
distinct originating parents) the per-child parent list
(`_child_parents`). -/
inductive Node where
  | mk (obj : CValue) (opts : Opts) (parent : Option Node)
      (childParents : Option (List Node))

/-- Wrapped value of a node. -/
def Node.obj : Node → CValue
  | Node.mk o _ _ _ => o

/-- Configuration snapshot of a node. -/
def Node.opts : Node → Opts
  | Node.mk _ os _ _ => os

/-- Parent back-reference of a node. -/
def Node.parent : Node → Option Node
  | Node.mk _ _ p _ => p

/-- Per-child parent tracking of an iterable node. -/
def Node.childParents : Node → Option (List Node)
  | Node.mk _ _ _ cp => cp

/-- Translation of `_make_child` (traversable.py lines 37-45 and 387-391):
the child wraps `obj`, copies the parent's options (the class defaults
when `parent` is `None`, as in `_get_grandchild_items`), records the
parent and the optional per-child parent list. -/
def makeChild (obj : CValue) (parent : Option Node)
    (cp : Option (List Node)) : Node :=
  Node.mk obj
    (match parent with | some p => p.opts | Option.none => defaultOpts)
    parent cp

/-- Translation of `CherryPickerTraversable.filter` (traversable.py
lines 47-153), generic over the subclass's `_filter` implementation
(`self._filter` is a virtual call): reject an invalid `how`
(`_PRED_RULES = ('all', 'any')`, picker.py line 78), return the node
itself on zero predicates, otherwise wrap the `_filter` result in a
child node. -/
def traversableFilter
    (subFilter : String → Bool → Bool → Bool → List (String × Pred) →
      Except PyErr CValue)
    (self : Node) (how : String)
    (allow_wildcards case_sensitive regex : Bool)
    (preds : List (String × Pred)) : Except PyErr Node :=
  if !(how == "all" || how == "any") then Except.error PyErr.valueError
  else if preds.isEmpty then Except.ok self
  else
    match subFilter how allow_wildcards case_sensitive regex preds with
    | Except.error e => Except.error e
    | Except.ok obj => Except.ok (makeChild obj (some self) Option.none)

/-- Subscript argument shapes used with `__getitem__`: a single key, a
slice, or a tuple of keys. -/
inductive PyKey where
  | int (n : Int)
  | str (s : String)
  | bool (b : Bool)
deriving DecidableEq, Repr

/-- A `__getitem__` argument. -/
inductive GetArgs where
  | key (k : PyKey)
  | slice (start stop : Option Int)
  | tuple (ks : List PyKey)
deriving DecidableEq, Repr

/-- Python list slicing `xs[start:stop]` (step 1), with negative-index
and clamping semantics. -/
def pySlice {α : Type} (xs : List α) (start stop : Option Int) : List α :=
  let n : Int := xs.length
  let s : Int :=
    match start with
    | Option.none => 0
    | some i => if i < 0 then max (n + i) 0 else min i n
  let e : Int :=
    match stop with
    | Option.none => n
    | some i => if i < 0 then max (n + i) 0 else min i n
  (xs.take e.toNat).drop s.toNat

/-- Python list indexing `xs[i]` with negative-index support;
out of range is an `IndexError`. -/
def pyListGet {α : Type} (xs : List α) (i : Int) : Except PyErr α :=
  let j := if i < 0 then i + xs.length else i
  if j < 0 then Except.error PyErr.indexError
  else
    match xs[j.toNat]? with
    | some v => Except.ok v
    | Option.none => Except.error PyErr.indexError

/-- Python `isinstance(x, int)` applied to a key (booleans are
integers in Python), yielding the integer index. -/
def intIndexQ : PyKey → Option Int
  | PyKey.int n => some n
  | PyKey.bool b => some (if b then 1 else 0)
  | _ => Option.none

/-- Dict subscript with an arbitrary key: our modelled dicts are
string-keyed, so non-string keys are absent (`KeyError`). -/
def mapKeyLookup (kvs : List (String × CValue)) : PyKey → Except PyErr CValue
  | PyKey.str s =>
      match kvs.lookup s with
      | some v => Except.ok v
      | Option.none => Except.error PyErr.keyError
  | _ => Except.error PyErr.keyError

/-- Python `key in obj` on a raw dict. -/
def mapContainsKey (kvs : List (String × CValue)) : PyKey → Bool
  | PyKey.str s => (kvs.lookup s).isSome
  | _ => false

/-- Python `obj.__getitem__(args)` on a raw wrapped value: dict lookup,
list/str indexing and slicing; a slice subscript on a dict and any
subscript on a scalar raise `TypeError`. -/
def pyGetitemRaw : CValue → GetArgs → Except PyErr CValue
  | CValue.map kvs, GetArgs.key k => mapKeyLookup kvs k
  | CValue.map _, GetArgs.slice _ _ => Except.error PyErr.typeError
  | CValue.map _, GetArgs.tuple _ => Except.error PyErr.keyError
  | CValue.list xs, GetArgs.key k =>
      (match intIndexQ k with
       | some i => pyListGet xs i
       | Option.none => Except.error PyErr.typeError)
  | CValue.list xs, GetArgs.slice a b => Except.ok (CValue.list (pySlice xs a b))
  | CValue.list _, GetArgs.tuple _ => Except.error PyErr.typeError
  | CValue.str s, GetArgs.key k =>
      (match intIndexQ k with
       | some i =>
           (match pyListGet s.data i with
            | Except.ok c => Except.ok (CValue.str (String.mk [c]))
            | Except.error e => Except.error e)
       | Option.none => Except.error PyErr.typeError)
  | CValue.str s, GetArgs.slice a b => Except.ok (CValue.str (String.mk (pySlice s.data a b)))
  | CValue.str _, GetArgs.tuple _ => Except.error PyErr.typeError
  | _, _ => Except.error PyErr.typeError

/-- Base classes a Python exception class can (transitively) derive
from, as far as `raise` semantics cares. -/
inductive PyBase where
  | objectBase
  | exceptionBase
deriving DecidableEq

/-- From `exceptions.py` line 1: `class CherryPickerError(object)` — the
error taxonomy derives from `object`, not from `Exception`. -/
def cherryPickerErrorBase : PyBase := PyBase.objectBase

/-- Python `raise e` semantics: raising an instance whose class does not
derive from `BaseException` makes the `raise` statement itself raise
`TypeError` instead. -/
def pyRaise (intended : PyErr) (base : PyBase) : PyErr :=
  match base with
  | PyBase.exceptionBase => intended
  | PyBase.objectBase => PyErr.typeError

/-- Translation of `CherryPickerLeaf.__getitem__` (leaf.py lines 27-30):
under `on_leaf == "raise"` execute `raise LeafError()` (see `pyRaise`);
otherwise delegate to the wrapped value's own `__getitem__`.  The result
is the raw value, not a node. -/
def leafGetitem (opts : Opts) (obj : CValue) (item : GetArgs) :
    Except PyErr CValue :=
  if opts.on_leaf == "raise" then
    Except.error (pyRaise PyErr.leafError cherryPickerErrorBase)
  else pyGetitemRaw obj item

/-- Python `obj[arg] if arg in obj else default` on a raw dict
(`CherryPickerMapping.__getitem__`'s permissive lookup). -/
def mapGetOr (kvs : List (String × CValue)) (d : CValue) : PyKey → CValue
  | PyKey.str s =>
      match kvs.lookup s with
      | some v => v
      | Option.none => d
  | _ => d

/-- Translation of `CherryPickerMapping.__getitem__` (traversable.py
lines 320-339): tuple subscripts produce a list of per-key values,
single subscripts the looked-up value; under `on_missing == "ignore"`
absent keys yield the configured default, otherwise the raw lookup
failure propagates; a slice subscript raises `TypeError` either way
(unhashable in the `in` test and in the lookup). -/
def mapGetitem (self : Node) (args : GetArgs) : Except PyErr Node :=
  let allow_missing := self.opts.on_missing == "ignore"
  let d := self.opts.dflt
  match self.obj with
  | CValue.map kvs =>
      (match args with
       | GetArgs.tuple ks =>
           (if allow_missing then
              Except.ok (makeChild (CValue.list (ks.map (mapGetOr kvs d)))
                (some self) Option.none)
            else
              match ks.mapM (mapKeyLookup kvs) with
              | Except.error e => Except.error e
              | Except.ok items =>
                  Except.ok (makeChild (CValue.list items) (some self) Option.none))
       | GetArgs.key k =>
           (if allow_missing then
              Except.ok (makeChild (mapGetOr kvs d k) (some self) Option.none)
            else
              match mapKeyLookup kvs k with
              | Except.error e => Except.error e
              | Except.ok v => Except.ok (makeChild v (some self) Option.none))
       | GetArgs.slice _ _ => Except.error PyErr.typeError)
  | _ => Except.error PyErr.typeError

/-- Python `args[-1] in (True, False)` for a tuple element: membership
uses `==`, and in Python `True == 1` and `False == 0`. -/
def isBoolLike : PyKey → Bool
  | PyKey.bool _ => true
  | PyKey.int n => n == 0 || n == 1
  | PyKey.str _ => false

/-- Python truthiness of a stripped propagate value. -/
def pyTruthy : PyKey → Bool
  | PyKey.bool b => b
  | PyKey.int n => !(n == 0)
  | PyKey.str s => !(s == "")

/-- Translation of the argument-normalisation prologue of
`CherryPickerIterable.__getitem__` (traversable.py lines 501-509): from
a tuple of length > 1 whose last element equals `True` or `False`, strip
that element as the propagate flag; then collapse a one-element tuple to
its sole element. -/
def parseArgs : GetArgs → GetArgs × Option PyKey
  | GetArgs.tuple ks =>
      let stripped : List PyKey × Option PyKey :=
        match ks.getLast? with
        | some last =>
            if ks.length > 1 && isBoolLike last then (ks.dropLast, some last)
            else (ks, Option.none)
        | Option.none => (ks, Option.none)
      (match stripped with
       | ([k], p) => (GetArgs.key k, p)
       | (ks', p) => (GetArgs.tuple ks', p))
  | a => (a, Option.none)

/-- Children list of an iterable node's wrapped value (iterable nodes
always wrap lists; the junk value `[]` routes anything else to the
empty-sequence branch). -/
def objList : CValue → List CValue
  | CValue.list xs => xs
  | _ => []

/-- Python `isinstance(args, int)` on a whole `__getitem__` argument. -/
def argIntQ : GetArgs → Option Int
  | GetArgs.key k => intIndexQ k
  | _ => Option.none

/-- Result of a dispatched `__getitem__`: traversable nodes return
nodes, leaves return the raw value. -/
inductive GetResult where
  | node (n : Node)
  | raw (v : CValue)

/-- The `.get()` call applied to a dispatched `__getitem__` result
(`_get_grandchild_items`): a node unwraps; a raw dict's `.get` needs an
argument (`TypeError`), other raw values have no `.get`
(`AttributeError`). -/
def pyGet : GetResult → Except PyErr CValue
  | GetResult.node n => Except.ok n.obj
  | GetResult.raw v =>
      match v with
      | CValue.map _ => Except.error PyErr.typeError
      | _ => Except.error PyErr.attrError

/-- Translation of `CherryPickerIterable._get_child_items`
(traversable.py lines 474-480): per-item raw extraction, a row per item
for tuple keys. -/
def getChildItems (keys : GetArgs) (batch : List CValue) :
    Except PyErr (List CValue) :=
  match keys with
  | GetArgs.tuple ks =>
      batch.mapM (fun o =>
        match ks.mapM (fun k => pyGetitemRaw o (GetArgs.key k)) with
        | Except.error e => Except.error e
        | Except.ok row => Except.ok (CValue.list row))
  | k => batch.mapM (fun o => pyGetitemRaw o k)

mutual
/-- Translation of `CherryPickerIterable.__getitem__` (traversable.py
lines 494-568): the empty-sequence check, then argument normalisation
(`parseArgs`), then the dispatch on the propagate flag
(`iterGetitemPost`).  `fuel` bounds the nested "grandchild" dispatch
(Python's recursion limit). -/
def iterGetitem (fuel : Nat) (self : Node) (args : GetArgs) :
    Except PyErr Node :=
  if (objList self.obj).length = 0 then
    if self.opts.on_missing == "ignore" then
      Except.ok (makeChild (CValue.list []) (some self) Option.none)
    else Except.error PyErr.indexError
  else
    match parseArgs args with
    | (args', prop) => iterGetitemPost fuel self args' prop
termination_by (fuel, 5, 0)

/-- The post-normalisation body of `CherryPickerIterable.__getitem__`:
default behaviour (integer index, slice, or chunked broadcast over the
children), forced per-child "grandchild" extraction when the propagate
flag is truthy, and a direct wrapped lookup when it is falsy. -/
def iterGetitemPost (fuel : Nat) (self : Node) (args : GetArgs)
    (prop : Option PyKey) : Except PyErr Node :=
  let obj := objList self.obj
  match prop with
  | Option.none =>
      (match argIntQ args with
       | some i =>
           (match pyListGet obj i with
            | Except.error e => Except.error e
            | Except.ok item =>
                match self.childParents with
                | some cps =>
                    (match pyListGet cps i with
                     | Except.error e => Except.error e
                     | Except.ok p => Except.ok (makeChild item (some p) Option.none))
                | Option.none => Except.ok (makeChild item (some self) Option.none))
       | Option.none =>
           match args with
           | GetArgs.slice a b =>
               (match self.childParents with
                | some cps =>
                    Except.ok (makeChild (CValue.list (pySlice obj a b))
                      (some self) (some (pySlice cps a b)))
                | Option.none =>
                    Except.ok (makeChild (CValue.list (pySlice obj a b))
                      (some self) Option.none))
           | _ =>
               match (chunksOf obj self.opts.n_jobs).mapM (getChildItems args) with
               | Except.error e => Except.error e
               | Except.ok children =>
                   (if self.opts.n_jobs = 1 then
                      match children with
                      | [] => Except.error PyErr.indexError
                      | c :: _ =>
                          Except.ok (makeChild (CValue.list c) (some self)
                            self.childParents)
                    else
                      Except.ok (makeChild (CValue.list children.flatten)
                        (some self) self.childParents)))
  | some pv =>
      if pyTruthy pv then
        match grandchildChunks fuel args (chunksOf obj self.opts.n_jobs) with
        | Except.error e => Except.error e
        | Except.ok tree =>
            (match
               (if self.opts.n_jobs = 1 then
                  match tree with
                  | [] => Except.error PyErr.indexError
                  | t :: _ => Except.ok t
                else
                  Except.ok ((tree.map Prod.fst).flatten,
                    (tree.map Prod.snd).flatten)) with
             | Except.error e => Except.error e
             | Except.ok (gitems, gparents) =>
                 let pairs := gitems.zip gparents
                 Except.ok (makeChild (CValue.list (pairs.map Prod.fst))
                   (some self)
                   (some (pairs.map
                     (fun pr => makeChild pr.2 (some self) Option.none)))))
      else
        match pyGetitemRaw self.obj args with
        | Except.error e => Except.error e
        | Except.ok v => Except.ok (makeChild v (some self) self.childParents)
termination_by (fuel, 4, 0)

/-- The `Parallel` loop of the propagate branch: apply
`_get_grandchild_items` to every chunk. -/
def grandchildChunks (fuel : Nat) (args : GetArgs)
    (chunks : List (List CValue)) :
    Except PyErr (List (List CValue × List CValue)) :=
  match chunks with
  | [] => Except.ok []
  | c :: rest =>
      match getGrandchildItems fuel args c with
      | Except.error e => Except.error e
      | Except.ok t =>
          match grandchildChunks fuel args rest with
          | Except.error e => Except.error e
          | Except.ok ts => Except.ok (t :: ts)
termination_by (fuel, 3, chunks.length)

/-- Translation of `CherryPickerIterable._get_grandchild_items`
(traversable.py lines 482-492): wrap each batch item in a fresh child
node (no parent, hence class-default options), dispatch the extraction
on it, unwrap with `.get()`, and collect the items alongside their
originating raw parents. -/
def getGrandchildItems (fuel : Nat) (keys : GetArgs)
    (batch : List CValue) : Except PyErr (List CValue × List CValue) :=
  match batch with
  | [] => Except.ok ([], [])
  | o :: rest =>
      match dispatchGetitem fuel (makeChild o Option.none Option.none) keys with
      | Except.error e => Except.error e
      | Except.ok r =>
          match pyGet r with
          | Except.error e => Except.error e
          | Except.ok v =>
              match getGrandchildItems fuel keys rest with
              | Except.error e => Except.error e
              | Except.ok (items, parents) => Except.ok (v :: items, o :: parents)
termination_by (fuel, 2, batch.length)

/-- Virtual `__getitem__` dispatch on a node's kind (the `parent
.__getitem__(keys)` call of `_get_grandchild_items`): mapping and
iterable nodes return nodes, leaves return the raw delegated value.
Descending into a nested iterable consumes one unit of fuel. -/
def dispatchGetitem (fuel : Nat) (node : Node) (args : GetArgs) :
    Except PyErr GetResult :=
  match cherryClass node.obj with
  | CClass.mapping =>
      (match mapGetitem node args with
       | Except.error e => Except.error e
       | Except.ok n => Except.ok (GetResult.node n))
  | CClass.leaf =>
      (match leafGetitem node.opts node.obj args with
       | Except.error e => Except.error e
       | Except.ok v => Except.ok (GetResult.raw v))
  | CClass.iterable =>
      match fuel with
      | 0 => Except.error PyErr.recursionError
      | Nat.succ f =>
          match iterGetitem f node args with
          | Except.error e => Except.error e
          | Except.ok n => Except.ok (GetResult.node n)
termination_by (fuel, 1, 0)
end

/-! Concrete oracles and nodes used to instantiate theorems on closed
inputs. -/

/-- A regex oracle whose patterns always compile and whose full match is
plain string equality of pattern and value. -/
def reF0 : String → String → Bool → Except PyErr Bool :=
  fun p v _ => Except.ok (p == v)

/-- A glob oracle that never matches. -/
def fnm0 : String → String → Bool := fun _ _ => false

/-- A regex oracle for which every pattern is malformed (every call
raises `re.error`). -/
def reFBad : String → String → Bool → Except PyErr Bool :=
  fun _ _ _ => Except.error PyErr.reError

/-- A predicate callable that raises an ordinary (non-pattern)
exception. -/
def fErrC4 : CValue → Except PyErr Bool := fun _ => Except.error (PyErr.userError 0)

/-- A predicate callable that raises `re.error` itself. -/
def fReErrC4 : CValue → Except PyErr Bool := fun _ => Except.error PyErr.reError

/-- An iterable node wrapping the one-element list `[None]` with the
default options. -/
def self0 : Node :=
  Node.mk (CValue.list [CValue.null]) defaultOpts Option.none Option.none

/-! ## Theorems -/

/-- C6: for every traversable node, any valid `how` and zero predicates,
`filter` returns the original node itself — for *every* subclass
`_filter` implementation, so predicate evaluation is never invoked and
no child node is constructed. -/
theorem filter_zero_predicates_noop
    (subFilter : String → Bool → Bool → Bool → List (String × Pred) →
      Except PyErr CValue)
    (self : Node) (how : String) (aw cs rg : Bool)
    (h : how = "all" ∨ how = "any") :
    traversableFilter subFilter self how aw cs rg [] = Except.ok self := by
  rcases h with h | h <;> subst h <;> rfl

/-- Witness for C6 at a concrete node, a concrete (erroring) `_filter`
implementation and `how = "all"`. -/
theorem filter_zero_predicates_noop_witness :
    traversableFilter (fun _ _ _ _ _ => Except.error PyErr.typeError)
      self0 "all" true true false [] = Except.ok self0 :=
  filter_zero_predicates_noop _ self0 "all" true true false (Or.inl rfl)

/-- C9: indexing an iterable node wrapping an empty sequence, with any
argument, returns a fresh iterable node wrapping an empty sequence when
`on_missing == "ignore"` and raises `IndexError` otherwise, before any
extraction is attempted. -/
theorem iter_getitem_empty (opts : Opts) (p : Option Node)
    (cp : Option (List Node)) (fuel : Nat) (args : GetArgs) :
    iterGetitem fuel (Node.mk (CValue.list []) opts p cp) args =
      (if opts.on_missing == "ignore" then
        Except.ok (Node.mk (CValue.list []) opts
          (some (Node.mk (CValue.list []) opts p cp)) Option.none)
      else Except.error PyErr.indexError) := by
  rw [iterGetitem]
  by_cases h : opts.on_missing == "ignore" <;>
    simp [h, objList, Node.obj, Node.opts, makeChild]

/-- C5 counterexample: with `case_sensitive = False` and `regex = True`,
the string branch lowercases the operands before calling the regex
engine, so under the equality-as-regex oracle `reF0` the pattern `"A"`
matches the value `"a"`, whereas the claim's flag-only evaluation does
not. -/
theorem str_branch_lowercases_counterexample :
    strBranch reF0 fnm0 false true true "A" "a" = Except.ok true ∧
    strBranchSpecC5 reF0 fnm0 false true true "A" "a" = Except.ok false ∧
    ¬ strBranch reF0 fnm0 false true true "A" "a" =
        strBranchSpecC5 reF0 fnm0 false true true "A" "a" := by
  refine ⟨rfl, rfl, ?_⟩
  intro h
  have h1 : strBranch reF0 fnm0 false true true "A" "a" = Except.ok true := rfl
  have h2 : strBranchSpecC5 reF0 fnm0 false true true "A" "a" = Except.ok false := rfl
  rw [h1, h2] at h
  simp at h

/-- C5 amended: for every string predicate with `regex = true` and
`case_sensitive = false`, the evaluator lowercases *both* the pattern
and the candidate value and additionally passes the case-insensitive
flag to the full match. -/
theorem str_branch_regex_icase (reF : String → String → Bool → Except PyErr Bool)
    (fnm : String → String → Bool) (aw : Bool) (p v : String) :
    strBranch reF fnm false true aw p v = reF (strLower p) (strLower v) true := rfl

/-- C8: evaluation of `CherryPickerLeaf.__getitem__` at the failing
input.  Under the default `on_leaf = "raise"` the attempted
`raise LeafError()` produces a `TypeError` (exceptions.py derives the
taxonomy from `object`, not `Exception`), not a leaf-traversal error;
under `on_leaf = "ignore"` indexing delegates to the wrapped string's
own indexing. -/
theorem leaf_getitem_eval :
    leafGetitem defaultOpts (CValue.str "ab") (GetArgs.key (PyKey.int 0)) =
      Except.error PyErr.typeError ∧
    PyErr.typeError ≠ PyErr.leafError ∧
    leafGetitem { defaultOpts with on_leaf := "ignore" } (CValue.str "ab")
        (GetArgs.key (PyKey.int 0)) =
      pyGetitemRaw (CValue.str "ab") (GetArgs.key (PyKey.int 0)) ∧
    pyGetitemRaw (CValue.str "ab") (GetArgs.key (PyKey.int 0)) =
      Except.ok (CValue.str "a") := by
  refine ⟨rfl, by decide, rfl, ?_⟩
  rfl

/-- C2: when every named field predicate evaluates without error to a
boolean, `_filter_item` with `how = "all"` returns exactly the
conjunction of the per-field results and with `how = "any"` exactly the
disjunction (short-circuiting as it folds); with zero fields it returns
`True` for `"all"` and `False` for `"any"`. -/
theorem filter_item_all_any
    (reF : String → String → Bool → Except PyErr Bool)
    (fnm : String → String → Bool) (opts : Opts) (aw cs rg : Bool)
    (preds : List (String × Pred)) (obj : CValue) (bs : List Bool)
    (h : List.Forall₂
      (fun pr b => fieldRes reF fnm opts cs rg aw pr.1 pr.2 obj = Except.ok b)
      preds bs) :
    filter_item reF fnm opts "all" aw cs rg preds obj =
      Except.ok (some (bs.all id)) ∧
    filter_item reF fnm opts "any" aw cs rg preds obj =
      Except.ok (some (bs.any id)) := by
  induction h with
  | nil => exact ⟨rfl, rfl⟩
  | @cons pr b l1 l2 hpb _ ih =>
      obtain ⟨attr, pred⟩ := pr
      simp only at hpb
      constructor
      · rw [filter_item, hpb]
        cases b with
        | false => simp
        | true => simpa using ih.1
      · rw [filter_item, hpb]
        cases b with
        | false => simpa using ih.2
        | true => simp

/-- Witness for C2: two callable predicates evaluating to `True` and
`False` on a concrete mapping give `False` under `"all"` and `True`
under `"any"`. -/
theorem filter_item_all_any_witness :
    filter_item reF0 fnm0 defaultOpts "all" true true false
      [("a", Pred.callable (fun _ => Except.ok true)),
       ("b", Pred.callable (fun _ => Except.ok false))]
      (CValue.map [("a", CValue.null), ("b", CValue.null)]) =
        Except.ok (some false) ∧
    filter_item reF0 fnm0 defaultOpts "any" true true false
      [("a", Pred.callable (fun _ => Except.ok true)),
       ("b", Pred.callable (fun _ => Except.ok false))]
      (CValue.map [("a", CValue.null), ("b", CValue.null)]) =
        Except.ok (some true) := by
  have h := filter_item_all_any reF0 fnm0 defaultOpts true true false
    [("a", Pred.callable (fun _ => Except.ok true)),
     ("b", Pred.callable (fun _ => Except.ok false))]
    (CValue.map [("a", CValue.null), ("b", CValue.null)]) [true, false]
    (List.Forall₂.cons rfl (List.Forall₂.cons rfl List.Forall₂.nil))
  simpa using h

/-- C4 counterexample: a user-supplied predicate function that raises a
pattern error (`re.error`) propagates even under `on_error = "ignore"`
(the `except cls._RE_ERR: raise` arm catches it first), so the claim's
"propagates exactly when `on_error = 'raise'` and otherwise yields
false" fails at this input. -/
theorem field_res_callable_re_error_counterexample :
    fieldRes reF0 fnm0 defaultOpts true false true "a" (Pred.callable fReErrC4)
        (CValue.map [("a", CValue.null)]) = Except.error PyErr.reError ∧
    defaultOpts.on_error = "ignore" ∧
    Except.error PyErr.reError ≠ (Except.ok false : Except PyErr Bool) := by
  refine ⟨rfl, rfl, ?_⟩
  intro h
  simp at h

/-- C4 amended: per-field evaluation behaves as claimed except that a
pattern error raised by a user-supplied predicate function also always
propagates: (1) an absent field raises a missing-field error exactly
under `on_missing = "raise"` and otherwise yields false; (2) a callable
raising a non-pattern exception propagates exactly under
`on_error = "raise"` and otherwise yields false; (3) a callable raising
a pattern error always propagates; (4) a malformed regular-expression
pattern string always propagates regardless of `on_error`. -/
theorem field_res_error_policy
    (reF : String → String → Bool → Except PyErr Bool)
    (fnm : String → String → Bool) (opts : Opts) (aw cs : Bool)
    (attr : String) (obj : CValue) :
    (∀ rg pred, containsAttr attr obj = Except.ok false →
      fieldRes reF fnm opts cs rg aw attr pred obj =
        (if opts.on_missing == "raise" then Except.error PyErr.attrError
         else Except.ok false)) ∧
    (∀ rg f val e, containsAttr attr obj = Except.ok true →
      getAttr attr obj = Except.ok val → f val = Except.error e →
      e ≠ PyErr.reError →
      fieldRes reF fnm opts cs rg aw attr (Pred.callable f) obj =
        (if opts.on_error == "raise" then Except.error e else Except.ok false)) ∧
    (∀ rg f val, containsAttr attr obj = Except.ok true →
      getAttr attr obj = Except.ok val → f val = Except.error PyErr.reError →
      fieldRes reF fnm opts cs rg aw attr (Pred.callable f) obj =
        Except.error PyErr.reError) ∧
    (∀ p v, containsAttr attr obj = Except.ok true →
      getAttr attr obj = Except.ok (CValue.str v) →
      reF (if cs then p else strLower p) (if cs then v else strLower v) (!cs) =
        Except.error PyErr.reError →
      fieldRes reF fnm opts cs true aw attr (Pred.str p) obj =
        Except.error PyErr.reError) := by
  refine ⟨?_, ?_, ?_, ?_⟩
  · intro rg pred hc
    simp [fieldRes, hc]
  · intro rg f val e hc hv hf he
    simp [fieldRes, hc, hv, tryBody, hf, he]
  · intro rg f val hc hv hf
    simp [fieldRes, hc, hv, tryBody, hf]
  · intro p v hc hv hre
    simp [fieldRes, hc, hv, tryBody, strBranch, hre]

/-- Witness for C4 (amended): the four parts at concrete inputs — an
absent field under the default ignore policy, a callable raising an
ordinary exception under the ignore policy, a callable raising
`re.error`, and a malformed regex pattern string. -/
theorem field_res_error_policy_witness :
    fieldRes reF0 fnm0 defaultOpts true false true "a" (Pred.str "x")
      (CValue.map []) = Except.ok false ∧
    fieldRes reF0 fnm0 defaultOpts true false true "a" (Pred.callable fErrC4)
      (CValue.map [("a", CValue.str "y")]) = Except.ok false ∧
    fieldRes reF0 fnm0 defaultOpts true false true "a" (Pred.callable fReErrC4)
      (CValue.map [("a", CValue.str "y")]) = Except.error PyErr.reError ∧
    fieldRes reFBad fnm0 defaultOpts true true true "a" (Pred.str "(")
      (CValue.map [("a", CValue.str "y")]) = Except.error PyErr.reError := by
  refine ⟨?_, ?_, ?_, ?_⟩
  · simpa using
      (field_res_error_policy reF0 fnm0 defaultOpts true true "a"
        (CValue.map [])).1 false (Pred.str "x") rfl
  · simpa using
      (field_res_error_policy reF0 fnm0 defaultOpts true true "a"
        (CValue.map [("a", CValue.str "y")])).2.1 false fErrC4
        (CValue.str "y") (PyErr.userError 0) rfl rfl rfl (by decide)
  · exact
      (field_res_error_policy reF0 fnm0 defaultOpts true true "a"
        (CValue.map [("a", CValue.str "y")])).2.2.1 false fReErrC4
        (CValue.str "y") rfl rfl rfl
  · exact
      (field_res_error_policy reFBad fnm0 defaultOpts true true "a"
        (CValue.map [("a", CValue.str "y")])).2.2.2 "(" "y" rfl rfl rfl

/-- Helper: the skipping fold of `pyKeys` equals the plain fold over the
mapping children's key sets. -/
theorem foldl_keys_step_filterMap (l : List CValue) (acc : List String) :
    l.foldl
      (fun acc item =>
        match keySetQ item with
        | some ks => interKeys acc ks
        | Option.none => acc) acc
      = (l.filterMap keySetQ).foldl interKeys acc := by
  induction l generalizing acc with
  | nil => rfl
  | cons x xs ih => cases h : keySetQ x <;> simp [h, ih]

/-- Helper: intersecting starting from the empty set stays empty. -/
theorem foldl_interKeys_nil (L : List (List String)) :
    L.foldl interKeys [] = [] := by
  induction L with
  | nil => rfl
  | cons ks L ih => simpa [interKeys] using ih

/-- C7 counterexample: on `[0, {"a": 1}]` the code's `keys(5)` yields
`[]` (the non-mapping first child forces the empty starting set), while
the claim's "intersection of the key sets of the inspected mapping
children" is `["a"]`. -/
theorem keys_counterexample :
    pyKeys [CValue.int 0, CValue.map [("a", CValue.int 1)]] (some 5) =
      Except.ok [] ∧
    keysClaimC7 [CValue.int 0, CValue.map [("a", CValue.int 1)]] (some 5) =
      Except.ok ["a"] ∧
    Except.ok ([] : List String) ≠
      (Except.ok ["a"] : Except PyErr (List String)) := by
  refine ⟨rfl, rfl, ?_⟩
  intro h
  simp at h

/-- C7 amended: `keys(peek)` inspects at most the first `peek` children
(all when `peek is None`); when the preview is empty it raises an index
error; when the first inspected child is a mapping it returns the sorted
intersection of the key sets of the inspected mapping children
(non-mapping children skipped without error); when the first inspected
child is not a mapping it returns the empty list. -/
theorem keys_eq_amended (obj : List CValue) (peek : Option Nat) :
    pyKeys obj peek = keysAmendedC7 obj peek := by
  rw [pyKeys, keysAmendedC7]
  cases hp : previewOf obj peek with
  | nil => rfl
  | cons first rest =>
      cases hk : keySetQ first with
      | none =>
          simp only [hk, Option.getD_none, Option.isSome_none, Bool.false_eq_true,
            if_false, foldl_keys_step_filterMap, foldl_interKeys_nil]
      | some ks =>
          simp only [hk, Option.getD_some, Option.isSome_some, if_true,
            foldl_keys_step_filterMap, hp, List.filterMap_cons, interList]

/-- Helper: chunks of size at least 1 concatenate back to the original
list. -/
theorem sliceChunks_flatten (l : List CValue) (c : Nat) :
    1 ≤ c → (sliceChunks l c).flatten = l := by
  induction l, c using sliceChunks.induct with
  | case1 c => intro _; rw [sliceChunks]; rfl
  | case2 x xs => intro h; exact absurd h (by omega)
  | case3 x xs c ih =>
      intro _
      rw [sliceChunks]
      simp only [List.flatten_cons, ih (by omega), List.take_succ_cons]
      simp [List.take_append_drop]

/-- Helper: with chunk size equal to the length, a nonempty list forms a
single chunk. -/
theorem sliceChunks_length_self (x : CValue) (xs : List CValue) :
    sliceChunks (x :: xs) (xs.length + 1) = [x :: xs] := by
  rw [sliceChunks]
  rw [List.drop_length]
  rw [sliceChunks]
  simp

/-- Helper: `_filter_chunk` distributes over concatenation (the first
error wins, results concatenate). -/
theorem filter_chunk_append
    (reF : String → String → Bool → Except PyErr Bool)
    (fnm : String → String → Bool) (opts : Opts) (how : String)
    (aw cs rg : Bool) (preds : List (String × Pred)) (a b : List CValue) :
    filter_chunk reF fnm opts how aw cs rg preds (a ++ b) =
      (match filter_chunk reF fnm opts how aw cs rg preds a with
       | Except.error e => Except.error e
       | Except.ok ra =>
           match filter_chunk reF fnm opts how aw cs rg preds b with
           | Except.error e => Except.error e
           | Except.ok rb => Except.ok (ra ++ rb)) := by
  induction a with
  | nil =>
      cases h : filter_chunk reF fnm opts how aw cs rg preds b <;>
        simp [filter_chunk, h]
  | cons x a' ih =>
      rw [List.cons_append]
      rw [filter_chunk, filter_chunk]
      cases hx : filter_item reF fnm opts how aw cs rg preds x with
      | error e => rfl
      | ok r =>
          rw [ih]
          cases ha : filter_chunk reF fnm opts how aw cs rg preds a' with
          | error e => rfl
          | ok ra =>
              cases hb : filter_chunk reF fnm opts how aw cs rg preds b with
              | error e => rfl
              | ok rb => cases htr : truthy r <;> simp [htr]

/-- Helper: filtering every chunk and concatenating equals filtering the
concatenation of the chunks. -/
theorem mapChunks_filter_chunk_flatten
    (reF : String → String → Bool → Except PyErr Bool)
    (fnm : String → String → Bool) (opts : Opts) (how : String)
    (aw cs rg : Bool) (preds : List (String × Pred))
    (chs : List (List CValue)) :
    (match mapChunks (filter_chunk reF fnm opts how aw cs rg preds) chs with
     | Except.error e => Except.error e
     | Except.ok items => Except.ok items.flatten) =
      filter_chunk reF fnm opts how aw cs rg preds chs.flatten := by
  induction chs with
  | nil => rfl
  | cons c rest ih =>
      rw [List.flatten_cons, filter_chunk_append, ← ih, mapChunks]
      cases hc : filter_chunk reF fnm opts how aw cs rg preds c with
      | error e => rfl
      | ok rc =>
          cases hm : mapChunks (filter_chunk reF fnm opts how aw cs rg preds) rest with
          | error e => rfl
          | ok items => simp

/-- C1: chunked filtering.  For every *nonempty* sequence and every
worker count `k ≥ 1`, `_filter` with `n_jobs = k` equals `_filter` with
`n_jobs = 1` (contiguous chunks of size `ceil(len / k)`, each filtered
by the shared per-item evaluation, re-concatenated in order).  On the
empty sequence the code diverges from the claim: `n_jobs = 1` raises
`IndexError` (`items[0]` of zero chunk results) while `n_jobs = 2`
returns the empty sequence. -/
theorem iter_filter_chunking
    (reF : String → String → Bool → Except PyErr Bool)
    (fnm : String → String → Bool) (opts : Opts) (how : String)
    (aw cs rg : Bool) (preds : List (String × Pred)) :
    (∀ (obj : List CValue) (k : Nat), obj ≠ [] → 1 ≤ k →
      iterFilter reF fnm opts how aw cs rg preds obj k =
        iterFilter reF fnm opts how aw cs rg preds obj 1) ∧
    iterFilter reF fnm opts how aw cs rg preds [] 1 =
      Except.error PyErr.indexError ∧
    iterFilter reF fnm opts how aw cs rg preds [] 2 = Except.ok [] := by
  refine ⟨?_, rfl, rfl⟩
  intro obj k hne hk
  by_cases h1 : k = 1
  · subst h1; rfl
  obtain ⟨x, xs, rfl⟩ : ∃ x xs, obj = x :: xs := by
    cases obj with
    | nil => exact absurd rfl hne
    | cons x xs => exact ⟨x, xs, rfl⟩
  have hflat : (chunksOf (x :: xs) k).flatten = x :: xs := by
    rw [chunksOf]
    have hlen : ¬((x :: xs).length = 0) := by simp
    rw [if_neg hlen, if_neg (by omega : ¬(k = 0))]
    apply sliceChunks_flatten
    rw [ceilDiv, Nat.one_le_div_iff (by omega)]
    simp only [List.length_cons]
    omega
  have key := mapChunks_filter_chunk_flatten reF fnm opts how aw cs rg preds
    (chunksOf (x :: xs) k)
  rw [hflat] at key
  have hchunk1 : chunksOf (x :: xs) 1 = [x :: xs] := by
    rw [chunksOf]
    have hlen : ¬((x :: xs).length = 0) := by simp
    rw [if_neg hlen, if_neg (by omega : ¬((1 : Nat) = 0))]
    have : ceilDiv (x :: xs).length 1 = xs.length + 1 := by
      simp [ceilDiv]
    rw [this]
    exact sliceChunks_length_self x xs
  have rhs_eq : iterFilter reF fnm opts how aw cs rg preds (x :: xs) 1 =
      filter_chunk reF fnm opts how aw cs rg preds (x :: xs) := by
    rw [iterFilter, hchunk1]
    cases hF : filter_chunk reF fnm opts how aw cs rg preds (x :: xs) with
    | error e => simp [mapChunks, hF]
    | ok r => simp [mapChunks, hF]
  rw [rhs_eq, iterFilter]
  cases hM : mapChunks (filter_chunk reF fnm opts how aw cs rg preds)
      (chunksOf (x :: xs) k) with
  | error e =>
      rw [hM] at key
      exact key
  | ok items =>
      rw [hM] at key
      simpa [if_neg h1] using key

/-- Witness for C1's universally quantified part: a concrete one-element
sequence, `k = 2` versus `k = 1`. -/
theorem iter_filter_chunking_witness :
    iterFilter reF0 fnm0 defaultOpts "all" true true false [] [CValue.null] 2 =
      iterFilter reF0 fnm0 defaultOpts "all" true true false [] [CValue.null] 1 :=
  (iter_filter_chunking reF0 fnm0 defaultOpts "all" true true false []).1
    [CValue.null] 2 (by simp) (by omega)

/-- Helper: appending one more segment extends the accumulated prefix
the way `_flatten`'s recursive call does. -/
theorem joinSegs_concat (delim : String) (segs : List String) (k : String) :
    joinSegs delim (segs ++ [k]) = joinSegs delim segs ++ (k ++ delim) := by
  induction segs with
  | nil => simp [joinSegs, String.append_empty, String.empty_append]
  | cons s rest ih =>
      apply String.ext
      have ihd := congrArg String.data ih
      show (s ++ delim ++ joinSegs delim (rest ++ [k])).data =
        (s ++ delim ++ joinSegs delim rest ++ (k ++ delim)).data
      simp [String.data_append, ihd, List.append_assoc]

/-- C3 correspondence, generalised: running `_flatten` from a prefix
that is the accumulation of `segs` assigns exactly the (prefixed,
`prefix[:-1]`-keyed) spec entries into the flat dict, in traversal
order. -/
theorem pyFlatten_paths (delim : String) (maxd : Option Nat)
    (obj : CValue) (flat : List (String × CValue)) (pfx : String)
    (depth : Nat) :
    ∀ segs : List String, pfx = joinSegs delim segs →
      pyFlatten delim maxd obj flat pfx depth =
        specFold delim (specPaths maxd obj depth) segs flat := by
  refine pyFlatten.induct delim maxd
    (fun obj flat pfx depth => ∀ segs, pfx = joinSegs delim segs →
      pyFlatten delim maxd obj flat pfx depth =
        specFold delim (specPaths maxd obj depth) segs flat)
    (fun xs flat pfx depth i => ∀ segs, pfx = joinSegs delim segs →
      pyFlattenIdx delim maxd xs flat pfx depth i =
        specFold delim (specPathsIdx maxd xs depth i) segs flat)
    (fun kvs flat pfx depth => ∀ segs, pfx = joinSegs delim segs →
      pyFlattenKVs delim maxd kvs flat pfx depth =
        specFold delim (specPathsKVs maxd kvs depth) segs flat)
    ?_ ?_ ?_ ?_ ?_ ?_ ?_ ?_ obj flat pfx depth
  · intro t flat pfx depth hcond segs hpfx
    rw [pyFlatten.eq_def, if_pos hcond, specPaths.eq_def, if_pos hcond]
    simp [specFold, hpfx]
  · intro flat pfx depth hcond kvs _ ih segs hpfx
    rw [pyFlatten.eq_def, if_neg hcond, specPaths.eq_def, if_neg hcond]
    exact ih segs hpfx
  · intro flat pfx depth hcond xs _ ih segs hpfx
    rw [pyFlatten.eq_def, if_neg hcond, specPaths.eq_def, if_neg hcond]
    exact ih segs hpfx
  · intro flat pfx depth hcond v hnm hnl segs hpfx
    rw [pyFlatten.eq_def, if_neg hcond, specPaths.eq_def, if_neg hcond]
    cases v with
    | map kvs => exact (hnm kvs rfl rfl).elim
    | list xs => exact (hnl xs rfl rfl).elim
    | str s => simp [specFold, hpfx]
    | int n => simp [specFold, hpfx]
    | null => simp [specFold, hpfx]
  · intro flat pfx depth segs hpfx
    rw [pyFlattenKVs, specPathsKVs]
    rfl
  · intro flat pfx depth k v rest ih1 ih2 segs hpfx
    have hkey : pfx ++ k ++ delim = joinSegs delim (segs ++ [k]) := by
      rw [hpfx, joinSegs_concat, String.append_assoc]
    rw [pyFlattenKVs, ih2 segs hpfx, ih1 (segs ++ [k]) hkey, specPathsKVs]
    simp only [specFold, List.foldl_append, List.foldl_map,
      List.append_assoc, List.singleton_append]
  · intro flat pfx depth i segs hpfx
    rw [pyFlattenIdx, specPathsIdx]
    rfl
  · intro flat pfx depth i x xs ih1 ih2 segs hpfx
    have hkey : pfx ++ toString i ++ delim =
        joinSegs delim (segs ++ [toString i]) := by
      rw [hpfx, joinSegs_concat, String.append_assoc]
    rw [pyFlattenIdx, ih2 segs hpfx, ih1 (segs ++ [toString i]) hkey,
      specPathsIdx]
    simp only [specFold, List.foldl_append, List.foldl_map,
      List.append_assoc, List.singleton_append]

/-- Helper: for a one-character delimiter, stripping the final character
from the accumulated prefix yields exactly the delimiter-joined path. -/
theorem strInit_joinSegs (delim : String) (h : delim.length = 1) :
    ∀ segs : List String, strInit (joinSegs delim segs) = joinWith delim segs := by
  obtain ⟨c, hcdata⟩ : ∃ c, delim.data = [c] := by
    cases hd : delim.data with
    | nil => rw [String.length, hd] at h; simp at h
    | cons c t =>
        cases t with
        | nil => exact ⟨c, rfl⟩
        | cons d t' => rw [String.length, hd] at h; simp at h
  intro segs
  induction segs with
  | nil => rfl
  | cons s rest ih =>
      cases rest with
      | nil =>
          apply String.ext
          simp [strInit, joinSegs, joinWith, String.data_append, hcdata,
            String.append_empty]
      | cons t rest' =>
          have hne : (joinSegs delim (t :: rest')).data ≠ [] := by
            rw [joinSegs]
            simp [String.data_append, hcdata]
          have hne2 : delim.data ++ (joinSegs delim (t :: rest')).data ≠ [] := by
            simp [hcdata]
          apply String.ext
          have hdw : (joinWith delim (t :: rest')).data =
              (joinSegs delim (t :: rest')).data.dropLast := by
            rw [← ih]; rfl
          show ((s ++ delim ++ joinSegs delim (t :: rest')).data).dropLast =
            (s ++ delim ++ joinWith delim (t :: rest')).data
          simp only [String.data_append, List.append_assoc]
          rw [List.dropLast_append_of_ne_nil _ hne2,
            List.dropLast_append_of_ne_nil _ hne, hdw]

/-- C3 counterexample: with the two-character delimiter `"::"`,
flattening `{"a": {"b": 1}}` produces the key `"a::b:"` (only the final
character of the trailing delimiter is stripped), not the
delimiter-joined path `"a::b"`, so the produced key ends in a delimiter
remnant. -/
theorem flatten_counterexample :
    pyFlatten "::" (some 100)
        (CValue.map [("a", CValue.map [("b", CValue.int 1)])]) [] "" 0 =
      [("a::b:", CValue.int 1)] ∧
    specFlattenJoined "::" (some 100)
        (CValue.map [("a", CValue.map [("b", CValue.int 1)])]) =
      [("a::b", CValue.int 1)] ∧
    ("a::b:" : String) ≠ "a::b" := by
  refine ⟨?_, ?_, by decide⟩
  · norm_num [pyFlatten, pyFlattenKVs, dictAssign, strInit, cherryClass]
  · norm_num [specFlattenJoined, specPaths, specPathsKVs, List.foldl,
      dictAssign, joinWith]
    decide

/-- C3 amended: for every nested value, every *single-character*
delimiter and every depth limit, `_flatten` produces exactly the
single-level map obtained by assigning, in depth-first traversal order,
each leaf value (or depth-truncated remaining value) under its
delimiter-joined root-to-node path — in particular no delimiter is
appended at either end of a produced key beyond what the path segments
themselves contain. -/
theorem flatten_single_char_delim (delim : String) (maxd : Option Nat)
    (obj : CValue) (h : delim.length = 1) :
    pyFlatten delim maxd obj [] "" 0 = specFlattenJoined delim maxd obj := by
  have main := pyFlatten_paths delim maxd obj [] "" 0 [] rfl
  rw [main, specFlattenJoined, specFold]
  have hfun : (fun (f : List (String × CValue)) (sv : List String × CValue) =>
      dictAssign f (strInit (joinSegs delim ([] ++ sv.1))) sv.2) =
      (fun f sv => dictAssign f (joinWith delim sv.1) sv.2) := by
    funext f sv
    rw [List.nil_append, strInit_joinSegs delim h sv.1]
  rw [hfun]

/-- Witness for C3 (amended) at the delimiter `"_"` and a concrete
nested mapping. -/
theorem flatten_single_char_delim_witness :
    pyFlatten "_" (some 100)
        (CValue.map [("a", CValue.map [("b", CValue.int 1)])]) [] "" 0 =
      specFlattenJoined "_" (some 100)
        (CValue.map [("a", CValue.map [("b", CValue.int 1)])]) :=
  flatten_single_char_delim "_" (some 100)
    (CValue.map [("a", CValue.map [("b", CValue.int 1)])]) (by decide)

/-- C10: on a nonempty iterable node, a tuple subscript of length at
least 2 ending in the boolean `True`/`False` always has that boolean
stripped and used as the propagate flag — the remaining dispatch sees
only the other keys, so a final key that is literally `True` or `False`
is never extracted — and a one-element tuple `(k,)` is treated exactly
like the bare argument `k`. -/
theorem iter_getitem_bool_strip (fuel : Nat) (self : Node)
    (ks : List PyKey) (k : PyKey) (b : Bool)
    (hobj : objList self.obj ≠ []) (hks : ks ≠ []) :
    iterGetitem fuel self (GetArgs.tuple (ks ++ [PyKey.bool b])) =
      iterGetitemPost fuel self
        (match ks with
         | [x] => GetArgs.key x
         | _ => GetArgs.tuple ks) (some (PyKey.bool b)) ∧
    iterGetitem fuel self (GetArgs.tuple [k]) =
      iterGetitem fuel self (GetArgs.key k) := by
  have hlen : ¬((objList self.obj).length = 0) := by
    intro h
    exact hobj (List.length_eq_zero.mp h)
  constructor
  · rw [iterGetitem]
    rw [if_neg hlen]
    have hp : parseArgs (GetArgs.tuple (ks ++ [PyKey.bool b])) =
        ((match ks with
          | [x] => GetArgs.key x
          | _ => GetArgs.tuple ks), some (PyKey.bool b)) := by
      rw [parseArgs]
      rw [List.getLast?_concat]
      have hlen2 : (ks ++ [PyKey.bool b]).length > 1 := by
        cases ks with
        | nil => exact absurd rfl hks
        | cons a rest => simp
      simp [isBoolLike, hlen2, List.dropLast_concat]
      cases ks with
      | nil => exact absurd rfl hks
      | cons a rest => cases rest <;> simp
    rw [hp]
  · rw [iterGetitem, iterGetitem]
    rw [if_neg hlen, if_neg hlen]
    have h1 : parseArgs (GetArgs.tuple [k]) = (GetArgs.key k, Option.none) := by
      rw [parseArgs]
      simp [isBoolLike]
    rw [h1]
    rfl

/-- Witness for C10 at a concrete one-element iterable node:
`node[("a", True)]` dispatches on the single key `"a"` with the
propagate flag, and `node[(0,)]` equals `node[0]`. -/
theorem iter_getitem_bool_strip_witness :
    iterGetitem 0 self0 (GetArgs.tuple [PyKey.str "a", PyKey.bool true]) =
      iterGetitemPost 0 self0 (GetArgs.key (PyKey.str "a"))
        (some (PyKey.bool true)) ∧
    iterGetitem 0 self0 (GetArgs.tuple [PyKey.int 0]) =
      iterGetitem 0 self0 (GetArgs.key (PyKey.int 0)) := by
  have h := iter_getitem_bool_strip 0 self0 [PyKey.str "a"] (PyKey.int 0) true
    (by simp [self0, Node.obj, objList]) (by simp)
  simpa using h

end Cherry
